import Mathlib

/-!
Shallow embedding of the node-updater operator (Go) and proofs about the
behaviour its specification claims. Every definition below translates a
function of the repository source; the external collaborators (the
Kubernetes API, the Azure control plane, the Azure DevOps HTTP service and
the Go JSON decoder) are modeled as oracle parameters, matching the
spec's external-interface boundary. Go maps are modeled as association
lists in one fixed iteration order; a Go nil-pointer dereference (a
runtime panic) is modeled by the distinguished error value `Err.nilDeref`.
-/

namespace NodeUpdater

/-- Equality of Except values is decidable when it is for both sides. -/
instance {ε α : Type} [DecidableEq ε] [DecidableEq α] : DecidableEq (Except ε α) :=
  fun a b =>
    match a, b with
    | .error e1, .error e2 => decidable_of_iff (e1 = e2) (by simp)
    | .ok v1, .ok v2 => decidable_of_iff (v1 = v2) (by simp)
    | .error e1, .ok v2 => isFalse fun hh => Except.noConfusion hh
    | .ok v1, .error e2 => isFalse fun hh => Except.noConfusion hh

/-- Error values. `notFound` models a Kubernetes NotFound / Azure 404;
`nilDeref` marks a point where the Go code dereferences a nil pointer
(a runtime panic); `wrap` models fmt.Errorf wrapping with %w; `msg`
covers the remaining fmt.Errorf errors. -/
inductive Err where
  | notFound
  | msg (s : String)
  | wrap (s : String) (e : Err)
  | nilDeref
  deriving Repr, DecidableEq

/-- corev1.PodPhase, restricted to the constants the source mentions. -/
inductive PodPhase where
  | pending
  | running
  | succeeded
  | failed
  | unknown
  deriving Repr, DecidableEq

/-- corev1.EnvVar. -/
structure EnvVar where
  name : String
  value : String
  deriving Repr, DecidableEq

/-- corev1.Container, restricted to the Env field the source reads. -/
structure Container where
  env : List EnvVar
  deriving Repr, DecidableEq

/-- metav1.OwnerReference, restricted to the fields the source reads. -/
structure OwnerReference where
  kind : String
  name : String
  deriving Repr, DecidableEq

/-- corev1.Pod, restricted to the fields the source reads. `ns` is the Go
field Namespace (a Lean keyword). `logs` is the text that fetchPodLogs
would stream for this pod; `none` models a failing log stream. -/
structure Pod where
  name : String
  ns : String
  labels : List (String × String)
  phase : PodPhase
  logs : Option String
  nodeName : String
  ownerReferences : List OwnerReference
  containers : List Container
  deriving Repr, DecidableEq

/-- api/v1 SafeEvictSpec. The Go map LabelSelector is modeled as an
association list in one fixed iteration order. -/
structure SafeEvictSpec where
  labelSelector : List (String × String)
  lastLogLines : List String
  nodepools : List String
  namespaces : List String
  baseForBackupPool : String
  deriving Repr, DecidableEq

/-- api/v1 SafeEvict: the campaign resource (metadata name plus spec). -/
structure SafeEvictObj where
  name : String
  spec : SafeEvictSpec
  deriving Repr, DecidableEq

/-- SafeEvict.GetConfigmapName. -/
def SafeEvictObj.getConfigmapName (s : SafeEvictObj) : String :=
  "tmp" ++ s.name

/-- Go's s[:n] slice on a pool name. AKS pool names are ASCII, where
Go's byte indexing and character indexing coincide. -/
def strTake (s : String) (n : Nat) : String :=
  ⟨s.data.take n⟩

/-- SafeEvict.GetTemporaryNodepoolName: AKS allows at most 12 characters
in a pool name, so the base pool name is cut at 9 characters. -/
def SafeEvictObj.getTemporaryNodepoolName (s : SafeEvictObj) : String :=
  if s.spec.baseForBackupPool.length > 9 then
    "tmp" ++ strTake s.spec.baseForBackupPool 9
  else
    "tmp" ++ s.spec.baseForBackupPool

/-! ### PodController.GetSafeToEvictPods (internal/pod) -/

/-- Go map indexing pod.Labels[key]: the zero value "" when absent. -/
def podLabelValue (p : Pod) (key : String) : String :=
  match p.labels.lookup key with
  | some v => v
  | none => ""

/-- Go strings.HasSuffix over the character lists of the strings. -/
def hasSuffix (s suffix : String) : Bool :=
  suffix.data.isSuffixOf s.data

/-- The inner sentinel loop: the fetched log text ends with one of the
configured LastLogLines. A failing log fetch (logs = none) matches
nothing: the source skips the pod with `continue` on fetch error. -/
def logsEndWithSentinel (spec : SafeEvictSpec) (p : Pod) : Bool :=
  match p.logs with
  | none => false
  | some l => spec.lastLogLines.any fun s => hasSuffix l s

/-- One iteration of the label-selector loop body: the pod is appended
for this selector entry iff its label value differs, its phase is
Running, and its log tail ends with a configured sentinel. -/
def keyTriggersEvict (spec : SafeEvictSpec) (p : Pod) (kv : String × String) : Bool :=
  decide (podLabelValue p kv.1 ≠ kv.2) && decide (p.phase = .running)
    && logsEndWithSentinel spec p

/-- PodController.GetSafeToEvictPods: list all pods, keep those in a
monitored namespace, and append the pod once per label-selector entry
whose value mismatches, when Running and idle by the log tail. -/
def getSafeToEvictPods (spec : SafeEvictSpec) (pods : List Pod) : List Pod :=
  pods.flatMap fun p =>
    if p.ns ∈ spec.namespaces then
      (spec.labelSelector.filter (keyTriggersEvict spec p)).map fun _ => p
    else []

/-! ### AzureController.GetClusterInfo (internal/azure), lines 56-63 -/

/-- Outcome of the resource-group parsing step of GetClusterInfo.
`guardExit` is the early return for fewer than 2 parts; `indexPanic`
marks the Go runtime panic of an out-of-range index access. -/
inductive ClusterInfoResult where
  | guardExit
  | value (sub crg cn : String)
  | indexPanic
  deriving Repr, DecidableEq

/-- Go strings.Split(s, "_"), specialized to the single-character
separator the source uses, over the character list of the string. -/
def splitUnderscore (l : List Char) : List (List Char) :=
  match l with
  | [] => [[]]
  | c :: rest =>
    match splitUnderscore rest with
    | [] => [[]]
    | h :: t => if c = '_' then [] :: h :: t else (c :: h) :: t

/-- The tail of AzureController.GetClusterInfo: split the instance
metadata resource-group name on "_", return early when fewer than
2 parts, then read parts[2] (cluster name) and parts[1] (resource
group). `List.get?` models the fixed-index access; `none` is the Go
panic. -/
def extractClusterInfo (subscriptionId resourceGroupName : String) : ClusterInfoResult :=
  let parts := splitUnderscore resourceGroupName.data
  if parts.length < 2 then .guardExit
  else
    match parts.get? 2, parts.get? 1 with
    | some cn, some crg => .value subscriptionId (String.mk crg) (String.mk cn)
    | _, _ => .indexPanic

/-! ### PodController.EvictIdlePods (internal/pod) and
JobController.KillJobByPod (internal/job) -/

/-- External calls made while evicting one pod, recorded as a trace. -/
inductive EvictAct where
  | getPool (podName ns : String)
  | disableAgent (pool podName : String)
  | removeAgent (pool podName : String)
  | deleteJob (ns jobName : String)
  | deletePod (ns podName : String)
  deriving Repr, DecidableEq

/-- Oracles for the external collaborators of the eviction pipeline:
the Kubernetes pod API and the Azure DevOps agent service
(AzureDevopsController.DisableAgent / RemoveAgent are HTTP calls). -/
structure EvictEnv where
  fetchPod : String → String → Except Err Pod
  disableAgent : String → String → Except Err Unit
  removeAgent : String → String → Except Err Unit
  deleteJob : String → String → Except Err Unit
  deletePod : String → String → Except Err Unit

/-- The nested loops of PodController.getPodsPool: first container
environment variable named AZP_POOL. -/
def findAzpPool (cs : List Container) : Option String :=
  cs.findSome? fun c =>
    (c.env.find? fun e => decide (e.name = "AZP_POOL")).map fun e => e.value

/-- PodController.getPodsPool: fetch the pod and read AZP_POOL from its
container environment. -/
def getPodsPool (env : EvictEnv) (podName ns : String) : Except Err String :=
  match env.fetchPod podName ns with
  | .error e => .error (.wrap ("failed to get pod " ++ podName) e)
  | .ok p =>
    match findAzpPool p.containers with
    | some v => .ok v
    | none => .error (.msg ("environment variable AZP_POOL not found in pod " ++ podName))

/-- The jobName computed by KillJobByPod: name of the first owner
reference of kind Job, the empty string when there is none. -/
def jobNameOf (p : Pod) : String :=
  (((p.ownerReferences.find? fun r => decide (r.kind.toLower = "job")).map
    fun r => r.name).getD "")

/-- JobController.KillJobByPod, with the trace of the delete call it
issues: error when the pod has no owner references or no owner of kind
Job; otherwise delete the first Job owner. -/
def killJobByPodTrace (env : EvictEnv) (p : Pod) : Except Err Unit × List EvictAct :=
  if p.ownerReferences = [] then
    (.error (.msg ("pod " ++ p.name ++ " has no owner references")), [])
  else
    if jobNameOf p = "" then
      (.error (.msg ("no job owner found for pod " ++ p.name)), [])
    else
      match env.deleteJob p.ns (jobNameOf p) with
      | .error e => (.error (.wrap "failed to delete job" e), [.deleteJob p.ns (jobNameOf p)])
      | .ok _ => (.ok (), [.deleteJob p.ns (jobNameOf p)])

/-- The body of PodController.EvictIdlePods for one pod: pool lookup,
agent disable, agent remove, job delete, pod delete, in that order,
stopping at the first failure. The trace records each external call
when it is attempted. -/
def evictPodTrace (env : EvictEnv) (p : Pod) : Except Err Unit × List EvictAct :=
  match getPodsPool env p.name p.ns with
  | .error e => (.error e, [.getPool p.name p.ns])
  | .ok pool =>
    match env.disableAgent pool p.name with
    | .error e => (.error e, [.getPool p.name p.ns, .disableAgent pool p.name])
    | .ok _ =>
      match env.removeAgent pool p.name with
      | .error e =>
        (.error e,
          [.getPool p.name p.ns, .disableAgent pool p.name, .removeAgent pool p.name])
      | .ok _ =>
        match killJobByPodTrace env p with
        | (.error e, tr) =>
          (.error e,
            [.getPool p.name p.ns, .disableAgent pool p.name, .removeAgent pool p.name]
              ++ tr)
        | (.ok _, tr) =>
          match env.deletePod p.ns p.name with
          | .error e =>
            (.error (.wrap ("failed to delete pod " ++ p.name) e),
              [.getPool p.name p.ns, .disableAgent pool p.name,
                .removeAgent pool p.name] ++ tr ++ [.deletePod p.ns p.name])
          | .ok _ =>
            (.ok (),
              [.getPool p.name p.ns, .disableAgent pool p.name,
                .removeAgent pool p.name] ++ tr ++ [.deletePod p.ns p.name])

/-- PodController.EvictIdlePods: process pods in order; the first pod
whose eviction fails makes the whole call return that error, executing
nothing for the later pods. -/
def evictIdlePods (env : EvictEnv) : List Pod → Except Err Unit × List EvictAct
  | [] => (.ok (), [])
  | p :: rest =>
    match evictPodTrace env p with
    | (.error e, tr) => (.error e, tr)
    | (.ok _, tr) =>
      let r := evictIdlePods env rest
      (r.1, tr ++ r.2)

/-- The pool name that the pool-lookup sub-step yields for a pod
(defaulting to "" when that sub-step fails). -/
def poolOf (env : EvictEnv) (p : Pod) : String :=
  ((getPodsPool env p.name p.ns).toOption).getD ""

/-- The complete five-sub-step call sequence of one pod's eviction. -/
def stepSequence (env : EvictEnv) (p : Pod) : List EvictAct :=
  [.getPool p.name p.ns,
   .disableAgent (poolOf env p) p.name,
   .removeAgent (poolOf env p) p.name,
   .deleteJob p.ns (jobNameOf p),
   .deletePod p.ns p.name]

/-! ### ConfigMapController (internal/configmap) -/

/-- The cluster's ConfigMap store: (namespace, name) keyed records. -/
def CMStore := List ((String × String) × List (String × String))

/-- ConfigMapController.getConfigMap against a healthy API: the stored
data, or a NotFound error. -/
def lookupCM (store : CMStore) (ns name : String) : Option (List (String × String)) :=
  store.lookup (ns, name)

/-- ConfigMapController.CreateConfigMap: when the get succeeds the stored
record is left as it is and the call returns success; only when no
record exists is the supplied data written. -/
def createConfigMapStore (store : CMStore) (ns name : String)
    (data : List (String × String)) : Except Err Unit × CMStore :=
  match lookupCM store ns name with
  | some _ => (.ok (), store)
  | none => (.ok (), ((ns, name), data) :: store)

/-! ### NodePoolController (internal/nodepool): pool data model -/

/-- armcontainerservice.AgentPoolMode. -/
inductive AgentPoolMode where
  | system
  | user
  deriving Repr, DecidableEq

/-- The fields of ManagedClusterAgentPoolProfileProperties the source
reads or writes; every one is a pointer in the SDK, hence Option. -/
structure AgentPoolProps where
  mode : Option AgentPoolMode
  provisioningState : Option String
  enableAutoScaling : Option Bool
  minCount : Option Int
  maxCount : Option Int
  count : Option Int
  deriving Repr, DecidableEq

/-- armcontainerservice.AgentPool. Name is a *string in the SDK; it is
modeled total because every pool handled by the source carries a name. -/
structure AgentPool where
  name : String
  properties : Option AgentPoolProps
  deriving Repr, DecidableEq

/-- Response of a BeginCreateOrUpdate submission to the control plane:
success, a 409 concurrent-modification conflict, or another failure. -/
inductive SubmitResp where
  | okResp
  | conflict409
  | failResp (e : Err)
  deriving Repr, DecidableEq

/-- Line 329 of nodepool_controller.go: Properties, Mode present and
Mode == System. -/
def isSystemPool (p : AgentPool) : Bool :=
  match p.properties with
  | some pr =>
    match pr.mode with
    | some .system => true
    | _ => false
  | none => false

/-- The mutation `agentPool.Properties.EnableAutoScaling = to.Ptr(false)`
before the update is submitted. -/
def setEnableFalse (p : AgentPool) : AgentPool :=
  { p with properties := p.properties.map fun pr => { pr with enableAutoScaling := some false } }

/-- NodePoolController.DisableAutoScaling over the pools in iteration
order, returning the call's result and the list of updates submitted to
BeginCreateOrUpdate (in submission order, including a failing one).
System pools are skipped; pools with a Mode and a provisioning state
other than Succeeded are skipped (the state is dereferenced only when
Mode is present, as in the source); a 409 conflict makes the whole call
return success at once; any other submission failure makes it return
that error. -/
def disableAutoScaling (submit : AgentPool → SubmitResp) :
    List AgentPool → Except Err Unit × List AgentPool
  | [] => (.ok (), [])
  | p :: rest =>
    if isSystemPool p then disableAutoScaling submit rest
    else
      match p.properties with
      | none => (.error (.msg ("agent pool " ++ p.name ++ " has no properties")), [])
      | some pr =>
        if pr.mode.isSome then
          match pr.provisioningState with
          | none => (.error .nilDeref, [])
          | some st =>
            if st ≠ "Succeeded" then disableAutoScaling submit rest
            else
              match submit (setEnableFalse p) with
              | .conflict409 => (.ok (), [setEnableFalse p])
              | .failResp e =>
                (.error (.wrap ("failed to update autoscaling for agent pool " ++ p.name) e),
                  [setEnableFalse p])
              | .okResp =>
                let r := disableAutoScaling submit rest
                (r.1, setEnableFalse p :: r.2)
        else
          match submit (setEnableFalse p) with
          | .conflict409 => (.ok (), [setEnableFalse p])
          | .failResp e =>
            (.error (.wrap ("failed to update autoscaling for agent pool " ++ p.name) e),
              [setEnableFalse p])
          | .okResp =>
            let r := disableAutoScaling submit rest
            (r.1, setEnableFalse p :: r.2)

/-- A pool whose pointer fields relevant to DisableAutoScaling are all
populated (the realistic shape of a pool returned by the SDK). -/
def WFPool (p : AgentPool) : Bool :=
  match p.properties with
  | some pr => pr.mode.isSome && pr.provisioningState.isSome
  | none => false

/-- A pool that DisableAutoScaling should update: non-system with
provisioning state Succeeded. -/
def eligiblePool (p : AgentPool) : Bool :=
  !isSystemPool p &&
    (match p.properties with
     | some pr => decide (pr.provisioningState = some "Succeeded")
     | none => false)

/-! ### NodePoolController.SetDefaultScaling -/

/-- Go's int32(n) conversion (two's-complement wrap). -/
def toInt32 (n : Int) : Int :=
  (n + 2 ^ 31) % 2 ^ 32 - 2 ^ 31

/-- The mutations of the MinCount/MaxCount branch: enable autoscaling
and set the bounds. -/
def withMinMax (p : AgentPool) (mn mx : Int) : AgentPool :=
  { p with properties := p.properties.map fun pr =>
      { pr with enableAutoScaling := some true,
                minCount := some (toInt32 mn), maxCount := some (toInt32 mx) } }

/-- The mutations of the Count branch: disable autoscaling and set the
fixed count. -/
def withCount (p : AgentPool) (c : Int) : AgentPool :=
  { p with properties := p.properties.map fun pr =>
      { pr with enableAutoScaling := some false, count := some (toInt32 c) } }

/-- The final BeginCreateOrUpdate of SetDefaultScaling: a 409 conflict
is success; any other failure is the wrapped error; the submitted pool
is recorded either way. -/
def scalingSubmit (submit : AgentPool → SubmitResp) (p2 : AgentPool) :
    Except Err Unit × Option AgentPool :=
  match submit p2 with
  | .conflict409 => (.ok (), some p2)
  | .failResp e => (.error (.wrap ("failed to update scaling for node pool " ++ p2.name) e), some p2)
  | .okResp => (.ok (), some p2)

/-- SetDefaultScaling after its provisioning-state guard: parse the
persisted scaling JSON (the Go json.Unmarshal into map[string]int is the
oracle `parse`), then apply the MinCount/MaxCount pair, or Count, or —
when neither is present — only log and submit the UNCHANGED pool. -/
def setDefaultScalingBody (parse : String → Except Err (List (String × Int)))
    (submit : AgentPool → SubmitResp) (np : AgentPool) (scalingData : String) :
    Except Err Unit × Option AgentPool :=
  match parse scalingData with
  | .error _ => (.error (.msg "failed to parse scalingData JSON"), none)
  | .ok cfg =>
    match cfg.lookup "MinCount", cfg.lookup "MaxCount" with
    | some mn, some mx =>
      match np.properties with
      | none => (.error .nilDeref, none)
      | some pr =>
        if pr.enableAutoScaling = some true ∧ pr.minCount = some (toInt32 mn)
            ∧ pr.maxCount = some (toInt32 mx) then
          (.ok (), none)
        else
          scalingSubmit submit (withMinMax np mn mx)
    | _, _ =>
      match cfg.lookup "Count" with
      | some c =>
        match np.properties with
        | none => (.error .nilDeref, none)
        | some pr =>
          if pr.enableAutoScaling = some false ∧ pr.count = some (toInt32 c) then
            (.ok (), none)
          else
            scalingSubmit submit (withCount np c)
      | none =>
        scalingSubmit submit np

/-- NodePoolController.SetDefaultScaling. Returns the call's result and
the update submitted to BeginCreateOrUpdate, when one was. The guard
rejects a pool whose provisioning state is not Succeeded (the state is
dereferenced only when Mode is present, as in the source). -/
def setDefaultScaling (parse : String → Except Err (List (String × Int)))
    (submit : AgentPool → SubmitResp) (np : AgentPool) (scalingData : String) :
    Except Err Unit × Option AgentPool :=
  match np.properties with
  | some pr =>
    if pr.mode.isSome then
      match pr.provisioningState with
      | none => (.error .nilDeref, none)
      | some st =>
        if st ≠ "Succeeded" then
          (.error (.msg ("node pool " ++ np.name ++ " is still updating")), none)
        else setDefaultScalingBody parse submit np scalingData
    else setDefaultScalingBody parse submit np scalingData
  | none => setDefaultScalingBody parse submit np scalingData

/-! ### SafeEvictReconciler.Reconcile (internal/controller) -/

/-- The three tunable requeue intervals of appconfig.Config. -/
inductive Delay where
  | errorDelay
  | successDelay
  | upgradeFrequency
  deriving Repr, DecidableEq

/-- Outcome of one of the reconcile loops: fall through to the next
step, or return early with a delay and an optional error. -/
inductive LoopOutcome where
  | fallThrough
  | abort (d : Delay) (e : Option Err)
  deriving Repr, DecidableEq

/-- Selected effects of one reconcile invocation, recorded as a trace. -/
inductive RAct where
  | deleteCM (name : String)
  | createTemp (tmpName baseName : String)
  | createCM (name : String) (data : List (String × String))
  | setScaling (pool : String) (data : String)
  | cordonOff (pool : String)
  deriving Repr, DecidableEq

/-- Result of one reconcile invocation: the requeue delay, the error
value returned to the framework, and the recorded effects. -/
structure RResult where
  delay : Delay
  err : Option Err
  acts : List RAct
  deriving Repr, DecidableEq

/-- Oracles for everything one reconcile invocation consumes: the
campaign fetch, the staleness detector, the pool/cluster CRUD calls, the
persisted-record store and the eviction pipeline observed at its call
boundary (each is either repository code modeled separately above, or an
external API). -/
structure ReconEnv where
  getSafeEvict : Except Err SafeEvictObj
  updateNeeded : Except Err (List String × List (String × AgentPool))
  getNotReadyNodePools : Except Err (List (String × AgentPool))
  nodePoolExists : String → Except Err Bool
  deleteConfigMap : String → Except Err Unit
  createTemporaryNodePool : String → String → Except Err Unit
  getProvisioningState : String → Except Err String
  getConfigMapData : String → Except Err (List (String × String))
  createConfigMap : String → List (String × String) → Except Err Unit
  submitPool : AgentPool → SubmitResp
  parseScaling : String → Except Err (List (String × Int))
  cordonPool : String → Bool → Except Err Unit
  safeToEvictPods : Except Err (List Pod)
  getNodesByNodePool : String → Except Err (List String)
  evictPods : List Pod → Except Err Unit
  hasRunningStatefulPods : List String → Except Err Bool
  getNodePoolByName : String → Except Err AgentPool
  upgradeNodeImage : AgentPool → Except Err Unit
  removeTemporaryNodePool : String → Except Err Unit

/-- The Go map insert `outdatedNodePools[poolName] = pool`. -/
def insertPool (m : List (String × AgentPool)) (k : String) (v : AgentPool) :
    List (String × AgentPool) :=
  if (m.lookup k).isSome then
    m.map fun kv => if kv.1 = k then (k, v) else kv
  else m ++ [(k, v)]

/-- Merging the not-ready pools into the outdated pools (lines 100-102). -/
def mergePools (base extra : List (String × AgentPool)) : List (String × AgentPool) :=
  extra.foldl (fun m kv => insertPool m kv.1 kv.2) base

/-- filterPodsOnNodes (safeevict_controller.go): keep the pods scheduled
on one of the given nodes. -/
def filterPodsOnNodes (pods : List Pod) (nodes : List String) : List Pod :=
  pods.filter fun p => nodes.contains p.nodeName

/-- The per-pool body of performSafeEviction: cordon, select safe pods,
restrict to the pool's nodes, evict. -/
def performSafeEvictionLoop (env : ReconEnv) : List String → Except Err Unit
  | [] => .ok ()
  | poolName :: rest =>
    match env.cordonPool poolName true with
    | .error e => .error e
    | .ok _ =>
      match env.safeToEvictPods with
      | .error e => .error e
      | .ok pods =>
        match env.getNodesByNodePool poolName with
        | .error e => .error e
        | .ok nodes =>
          match env.evictPods (filterPodsOnNodes pods nodes) with
          | .error e => .error e
          | .ok _ => performSafeEvictionLoop env rest

/-- SafeEvictReconciler.performSafeEviction: disable autoscaling on the
outdated pools, then drain each one. -/
def performSafeEviction (env : ReconEnv) (outdatedPools : List (String × AgentPool)) :
    Except Err Unit :=
  match (disableAutoScaling env.submitPool (outdatedPools.map fun kv => kv.2)).1 with
  | .error e => .error e
  | .ok _ => performSafeEvictionLoop env (outdatedPools.map fun kv => kv.1)

/-- Line 198: Properties, ProvisioningState present and equal to
UpgradingNodeImageVersion. -/
def isUpgradingNodeImage (np : AgentPool) : Bool :=
  match np.properties with
  | some pr => decide (pr.provisioningState = some "UpgradingNodeImageVersion")
  | none => false

/-- Line 229: Properties, ProvisioningState present and equal to
Updating. -/
def isUpdatingState (np : AgentPool) : Bool :=
  match np.properties with
  | some pr => decide (pr.provisioningState = some "Updating")
  | none => false

/-- The per-monitored-pool upgrade loop (lines 174-215): when no guarded
pod still runs on the pool's nodes and it is not mid-image-upgrade,
trigger the upgrade; a pool mid-upgrade returns the short success
delay; any failure returns the short error delay. -/
def upgradeLoop (env : ReconEnv) : List String → LoopOutcome
  | [] => .fallThrough
  | name :: rest =>
    match env.getNodesByNodePool name with
    | .error e => .abort .errorDelay (some e)
    | .ok nodes =>
      match env.hasRunningStatefulPods nodes with
      | .error e => .abort .errorDelay (some e)
      | .ok true => upgradeLoop env rest
      | .ok false =>
        match env.getNodePoolByName name with
        | .error e => .abort .errorDelay (some e)
        | .ok np =>
          if isUpgradingNodeImage np then .abort .successDelay none
          else
            match env.upgradeNodeImage np with
            | .error e => .abort .errorDelay (some e)
            | .ok _ => upgradeLoop env rest

/-- The restore loop (lines 218-241): for every pool named in the
persisted record that is no longer outdated, restore its persisted
scaling config and uncordon its nodes (the uncordon error is discarded
by the source). The trace records the SetDefaultScaling and uncordon
calls. -/
def restoreLoop (env : ReconEnv) (outPools : List (String × AgentPool)) :
    List (String × String) → LoopOutcome × List RAct
  | [] => (.fallThrough, [])
  | (name, data) :: rest =>
    if (outPools.lookup name).isSome then restoreLoop env outPools rest
    else
      match env.getNodePoolByName name with
      | .error e => (.abort .errorDelay (some e), [])
      | .ok np =>
        match (setDefaultScaling env.parseScaling env.submitPool np data).1 with
        | .error e =>
          if isUpdatingState np then (.abort .successDelay none, [.setScaling name data])
          else (.abort .errorDelay (some e), [.setScaling name data])
        | .ok _ =>
          let r := restoreLoop env outPools rest
          (r.1, .setScaling name data :: .cordonOff name :: r.2)

/-- Lines 145-152: serialize each outdated pool's scaling config. The
source dereferences MinCount/MaxCount (or Count) without a nil check. -/
def minMaxJson (mn mx : Int) : String :=
  "\x7b\"MinCount\": " ++ toString mn ++ ", \"MaxCount\": " ++ toString mx ++ "\x7d"

/-- The fixed-count record format. -/
def countJson (c : Int) : String :=
  "\x7b\"Count\": " ++ toString c ++ "\x7d"

/-- Build the ConfigMap data snapshot of the outdated pools. -/
def buildConfigData : List (String × AgentPool) → Except Err (List (String × String))
  | [] => .ok []
  | (nm, p) :: rest =>
    match p.properties with
    | none => .error .nilDeref
    | some pr =>
      if pr.minCount.isSome || pr.maxCount.isSome then
        match pr.minCount, pr.maxCount with
        | some mn, some mx =>
          match buildConfigData rest with
          | .error e => .error e
          | .ok tl => .ok ((nm, minMaxJson mn mx) :: tl)
        | _, _ => .error .nilDeref
      else
        match pr.count with
        | some c =>
          match buildConfigData rest with
          | .error e => .error e
          | .ok tl => .ok ((nm, countJson c) :: tl)
        | none => .error .nilDeref

/-- The cleanup block (lines 243-299), reached when nothing is outdated:
drain the surge pool and, once no guarded pod remains on it, delete it
and the persisted record. A NotFound surge pool leads the source to
dereference a nil pool pointer (line 252). The performSafeEviction error
is discarded by the source (line 273). -/
def cleanupPhase (env : ReconEnv) (cmName tmpName : String) (acts : List RAct) : RResult :=
  match env.getNodePoolByName tmpName with
  | .error e =>
    if e = .notFound then ⟨.errorDelay, some .nilDeref, acts⟩
    else ⟨.errorDelay, some e, acts⟩
  | .ok tmpPool =>
    match (disableAutoScaling env.submitPool [tmpPool]).1 with
    | .error e => ⟨.errorDelay, some e, acts⟩
    | .ok _ =>
      match env.getNodesByNodePool tmpPool.name with
      | .error e => ⟨.errorDelay, some e, acts⟩
      | .ok tmpNodes =>
        match env.hasRunningStatefulPods tmpNodes with
        | .error e => ⟨.errorDelay, some e, acts⟩
        | .ok true => ⟨.successDelay, none, acts⟩
        | .ok false =>
          match env.removeTemporaryNodePool tmpName with
          | .error _ => ⟨.errorDelay, none, acts⟩
          | .ok _ =>
            match env.deleteConfigMap cmName with
            | .error e => ⟨.errorDelay, some e, acts ++ [.deleteCM cmName]⟩
            | .ok _ => ⟨.successDelay, none, acts ++ [.deleteCM cmName]⟩

/-- Lines 166-302: evict from the outdated pools, run the upgrade loop,
run the restore loop, and when nothing is outdated run the cleanup
block; otherwise finish with the short success delay. -/
def afterCMPhase (env : ReconEnv) (se : SafeEvictObj) (outNodes : List String)
    (outPools : List (String × AgentPool)) (cmData : List (String × String))
    (acts : List RAct) : RResult :=
  match performSafeEviction env outPools with
  | .error e => ⟨.errorDelay, some e, acts⟩
  | .ok _ =>
    match upgradeLoop env se.spec.nodepools with
    | .abort d e => ⟨d, e, acts⟩
    | .fallThrough =>
      let r := restoreLoop env outPools cmData
      match r.1 with
      | .abort d e => ⟨d, e, acts ++ r.2⟩
      | .fallThrough =>
        if outNodes = [] ∧ outPools = [] then
          cleanupPhase env se.getConfigmapName se.getTemporaryNodepoolName (acts ++ r.2)
        else ⟨.successDelay, none, acts ++ r.2⟩

/-- Lines 132-302: wait while the surge pool is Creating, ensure the
scaling-state record exists (the local variable keeps the nil map on
the pass that creates it), then the rest of the invocation. -/
def reconcileRestPhase (env : ReconEnv) (se : SafeEvictObj) (outNodes : List String)
    (outPools : List (String × AgentPool)) (acts : List RAct) : RResult :=
  match env.getProvisioningState se.getTemporaryNodepoolName with
  | .error e => ⟨.errorDelay, some e, acts⟩
  | .ok st =>
    if st = "Creating" then ⟨.successDelay, none, acts⟩
    else
      match env.getConfigMapData se.getConfigmapName with
      | .error e =>
        if e = .notFound then
          match buildConfigData outPools with
          | .error d => ⟨.errorDelay, some d, acts⟩
          | .ok configData =>
            match env.createConfigMap se.getConfigmapName configData with
            | .error e2 =>
              ⟨.errorDelay, some e2, acts ++ [.createCM se.getConfigmapName configData]⟩
            | .ok _ =>
              afterCMPhase env se outNodes outPools []
                (acts ++ [.createCM se.getConfigmapName configData])
        else ⟨.errorDelay, some e, acts⟩
      | .ok data => afterCMPhase env se outNodes outPools data acts

/-- client.IgnoreNotFound. -/
def ignoreNotFound (e : Err) : Option Err :=
  if e = .notFound then none else some e

/-- SafeEvictReconciler.Reconcile: one invocation of the reconciliation
engine over the observed world `env`. -/
def reconcile (env : ReconEnv) : RResult :=
  match env.getSafeEvict with
  | .error e => ⟨.errorDelay, ignoreNotFound e, []⟩
  | .ok se =>
    match env.updateNeeded with
    | .error _ => ⟨.errorDelay, none, []⟩
    | .ok (outNodes, outPools0) =>
      match env.getNotReadyNodePools with
      | .error e => ⟨.errorDelay, some e, []⟩
      | .ok notReady =>
        let outPools := mergePools outPools0 notReady
        match env.nodePoolExists se.getTemporaryNodepoolName with
        | .error e => ⟨.errorDelay, some e, []⟩
        | .ok tmpExists =>
          if tmpExists then reconcileRestPhase env se outNodes outPools []
          else if outNodes = [] ∧ outPools = [] then
            match env.deleteConfigMap se.getConfigmapName with
            | .error e => ⟨.errorDelay, some e, [.deleteCM se.getConfigmapName]⟩
            | .ok _ => ⟨.upgradeFrequency, none, [.deleteCM se.getConfigmapName]⟩
          else
            match env.createTemporaryNodePool se.getTemporaryNodepoolName
                se.spec.baseForBackupPool with
            | .error _ =>
              ⟨.errorDelay, none,
                [.createTemp se.getTemporaryNodepoolName se.spec.baseForBackupPool]⟩
            | .ok _ =>
              reconcileRestPhase env se outNodes outPools
                [.createTemp se.getTemporaryNodepoolName se.spec.baseForBackupPool]

/-! ### Demonstration worlds used by the concrete witnesses below -/

/-- A campaign spec with a two-key label selector and one idle sentinel. -/
def dupSpec : SafeEvictSpec :=
  { labelSelector := [("role", "done"), ("stage", "idle")],
    lastLogLines := ["Job finished"],
    nodepools := [], namespaces := ["agents"], baseForBackupPool := "pool" }

/-- A Running pod in the monitored namespace whose labels mismatch both
selector keys and whose log tail ends with the sentinel. -/
def dupPod : Pod :=
  { name := "agent-1", ns := "agents", labels := [], phase := .running,
    logs := some "step 3 ok. Job finished", nodeName := "node-1",
    ownerReferences := [], containers := [] }

/-- A pod bound to an external agent, owned by a Job. -/
def demoEvictPod : Pod :=
  { name := "agent-1", ns := "agents", labels := [], phase := .running,
    logs := some "Job finished", nodeName := "node-1",
    ownerReferences := [⟨"Job", "job-1"⟩],
    containers := [⟨[⟨"AZP_POOL", "poolX"⟩]⟩] }

/-- An eviction world where disabling the agent fails. -/
def demoEvictEnv : EvictEnv :=
  { fetchPod := fun n ns =>
      if n = "agent-1" ∧ ns = "agents" then .ok demoEvictPod else .error .notFound,
    disableAgent := fun _ _ => .error (.msg "disable failed"),
    removeAgent := fun _ _ => .ok (),
    deleteJob := fun _ _ => .ok (),
    deletePod := fun _ _ => .ok () }

/-- A user pool in Succeeded state with autoscaling on. -/
def cxPool1 : AgentPool :=
  ⟨"p1", some ⟨some .user, some "Succeeded", some true, some 1, some 3, some 2⟩⟩

/-- A second such pool. -/
def cxPool2 : AgentPool :=
  ⟨"p2", some ⟨some .user, some "Succeeded", some true, some 1, some 3, some 2⟩⟩

/-- A control plane that answers every update with a 409 conflict. -/
def cxSubmitConflict : AgentPool → SubmitResp := fun _ => .conflict409

/-- A control plane that accepts every update. -/
def cxSubmitOk : AgentPool → SubmitResp := fun _ => .okResp

/-- A JSON oracle that accepts exactly the empty object. -/
def c7Parse : String → Except Err (List (String × Int)) := fun s =>
  if s = "\x7b\x7d" then .ok [] else .error (.msg "invalid character")

/-- A user pool in Succeeded state with autoscaling enabled at 1..3. -/
def c7Pool : AgentPool :=
  ⟨"pool1", some ⟨some .user, some "Succeeded", some true, some 1, some 3, some 2⟩⟩

/-- A user pool in Succeeded state already autoscaled at 2..5. -/
def c4Pool : AgentPool :=
  ⟨"poolA", some ⟨some .user, some "Succeeded", some true, some 2, some 5, some 3⟩⟩

/-- A JSON oracle that answers the persisted min 2 / max 5 record. -/
def c4Parse : String → Except Err (List (String × Int)) := fun _ =>
  .ok [("MinCount", 2), ("MaxCount", 5)]

/-- A campaign resource named cr1 with base pool poolB. -/
def demoSafeEvict : SafeEvictObj :=
  ⟨"cr1",
    { labelSelector := []
      lastLogLines := []
      nodepools := []
      namespaces := []
      baseForBackupPool := "poolB" }⟩

/-- A fully steady world: nothing outdated, no surge pool. -/
def demoReconEnv : ReconEnv :=
  { getSafeEvict := .ok demoSafeEvict
    updateNeeded := .ok ([], [])
    getNotReadyNodePools := .ok []
    nodePoolExists := fun _ => .ok false
    deleteConfigMap := fun _ => .ok ()
    createTemporaryNodePool := fun _ _ => .ok ()
    getProvisioningState := fun _ => .ok "Creating"
    getConfigMapData := fun _ => .error .notFound
    createConfigMap := fun _ _ => .ok ()
    submitPool := fun _ => .okResp
    parseScaling := fun _ => .error (.msg "invalid")
    cordonPool := fun _ _ => .ok ()
    safeToEvictPods := .ok []
    getNodesByNodePool := fun _ => .ok []
    evictPods := fun _ => .ok ()
    hasRunningStatefulPods := fun _ => .ok false
    getNodePoolByName := fun _ => .error .notFound
    upgradeNodeImage := fun _ => .ok ()
    removeTemporaryNodePool := fun _ => .ok () }

/-! ## Theorems -/

/-- Helper: the length of a Go slice s[:n]. -/
theorem strTake_length (s : String) (n : Nat) : (strTake s n).length = min n s.length := by
  rw [← String.length_data, ← String.length_data s]
  simp [strTake]

/-- Helper: slicing at 9 keeps a short string whole. -/
theorem strTake_all_of_le (s : String) (h : s.length ≤ 9) : strTake s 9 = s := by
  have h2 : s.data.length ≤ 9 := by rw [String.length_data]; exact h
  show String.mk (s.data.take 9) = s
  rw [List.take_of_length_le h2]

/-- Helper: string concatenation adds lengths. -/
theorem strLength_append (s t : String) : (s ++ t).length = s.length + t.length := by
  rw [← String.length_data, ← String.length_data s, ← String.length_data t]
  show (String.mk (s.data ++ t.data)).data.length = _
  simp

/-- Helper: the prefix has three characters. -/
theorem strLength_tmp : ("tmp" : String).length = 3 := rfl

/-- C8: the surge pool name is "tmp" followed by the base pool name cut
at its first 9 characters (a no-op cut when the base name is 9 or
shorter), so the derived name never exceeds the 12-character AKS pool
name limit, and the derivation is a function of the spec alone. -/
theorem temporaryNodepoolName_spec (s : SafeEvictObj) :
    s.getTemporaryNodepoolName = "tmp" ++ strTake s.spec.baseForBackupPool 9
  ∧ s.getTemporaryNodepoolName.length ≤ 12 := by
  constructor
  · unfold SafeEvictObj.getTemporaryNodepoolName
    by_cases h : s.spec.baseForBackupPool.length > 9
    · rw [if_pos h]
    · rw [if_neg h, strTake_all_of_le s.spec.baseForBackupPool (by omega)]
  · unfold SafeEvictObj.getTemporaryNodepoolName
    by_cases h : s.spec.baseForBackupPool.length > 9
    · rw [if_pos h, strLength_append, strTake_length, strLength_tmp]
      omega
    · rw [if_neg h, strLength_append, strLength_tmp]
      omega

/-- C9: the resource-group guard of GetClusterInfo only rejects a split
with fewer than 2 parts, yet the code reads index 2; on every name that
splits into exactly 2 parts the guard passes and the index access has no
value (the Go index expression panics). -/
theorem extractClusterInfo_two_parts (sid rg : String)
    (h : (splitUnderscore rg.data).length = 2) :
    ¬ (splitUnderscore rg.data).length < 2 ∧ extractClusterInfo sid rg = .indexPanic := by
  have h2 : (splitUnderscore rg.data).get? 2 = none := by
    rw [List.get?_eq_none]
    omega
  refine ⟨by omega, ?_⟩
  unfold extractClusterInfo
  simp only [h2]
  rw [if_neg (by omega)]

/-- C9 witness: "a_b" splits into exactly 2 parts and the parsing step
hits the out-of-range access. -/
theorem extractClusterInfo_two_parts_witness :
    extractClusterInfo "sub-1" "mc_rg" = .indexPanic :=
  (extractClusterInfo_two_parts "sub-1" "mc_rg" (by decide)).2

/-- C2: EvictIdlePods processes the pods sequentially. A failing pod
makes the whole call return that error with exactly the calls made so
far and nothing executed for later pods (first two conjuncts); within
one pod the calls made are always a prefix of the five-sub-step order
pool-read, agent-disable, agent-remove, job-delete, pod-delete, and the
full sequence exactly when the pod's eviction succeeds (last two
conjuncts). -/
theorem evictIdlePods_sequential (env : EvictEnv) (p : Pod) (rest : List Pod) :
    (∀ e tr, evictPodTrace env p = (.error e, tr) →
        evictIdlePods env (p :: rest) = (.error e, tr))
  ∧ (∀ tr, evictPodTrace env p = (.ok (), tr) →
        evictIdlePods env (p :: rest)
          = ((evictIdlePods env rest).1, tr ++ (evictIdlePods env rest).2))
  ∧ (evictPodTrace env p).2 <+: stepSequence env p
  ∧ ((evictPodTrace env p).1 = .ok () → (evictPodTrace env p).2 = stepSequence env p) := by
  refine ⟨?_, ?_, ?_, ?_⟩
  · intro e tr h
    simp only [evictIdlePods, h]
  · intro tr h
    simp only [evictIdlePods, h]
  · unfold evictPodTrace killJobByPodTrace stepSequence poolOf
    cases hg : getPodsPool env p.name p.ns with
    | error e => exact ⟨_, rfl⟩
    | ok pool =>
      dsimp only
      cases hd : env.disableAgent pool p.name with
      | error e => exact ⟨_, rfl⟩
      | ok u =>
        dsimp only
        cases hr : env.removeAgent pool p.name with
        | error e => exact ⟨_, rfl⟩
        | ok u2 =>
          dsimp only
          by_cases ho : p.ownerReferences = []
          · rw [if_pos ho]
            exact ⟨_, rfl⟩
          · rw [if_neg ho]
            by_cases hj : jobNameOf p = ""
            · rw [if_pos hj]
              exact ⟨_, rfl⟩
            · rw [if_neg hj]
              cases hdj : env.deleteJob p.ns (jobNameOf p) with
              | error e => exact ⟨_, rfl⟩
              | ok u3 =>
                dsimp only
                cases hdp : env.deletePod p.ns p.name with
                | error e => exact ⟨_, rfl⟩
                | ok u4 => exact ⟨_, rfl⟩
  · unfold evictPodTrace killJobByPodTrace stepSequence poolOf
    cases hg : getPodsPool env p.name p.ns with
    | error e => intro h; simp at h
    | ok pool =>
      dsimp only
      cases hd : env.disableAgent pool p.name with
      | error e => intro h; simp at h
      | ok u =>
        dsimp only
        cases hr : env.removeAgent pool p.name with
        | error e => intro h; simp at h
        | ok u2 =>
          dsimp only
          by_cases ho : p.ownerReferences = []
          · rw [if_pos ho]
            intro h; simp at h
          · rw [if_neg ho]
            by_cases hj : jobNameOf p = ""
            · rw [if_pos hj]
              intro h; simp at h
            · rw [if_neg hj]
              cases hdj : env.deleteJob p.ns (jobNameOf p) with
              | error e => intro h; simp at h
              | ok u3 =>
                dsimp only
                cases hdp : env.deletePod p.ns p.name with
                | error e => intro h; simp at h
                | ok u4 => intro h; rfl

/-- C2 witness: with a failing agent-disable call, the whole eviction of
a two-pod list returns that error after exactly the pool-read and the
disable attempt of the first pod. -/
theorem evictIdlePods_sequential_witness :
    evictIdlePods demoEvictEnv [demoEvictPod, demoEvictPod]
      = (.error (.msg "disable failed"),
          [.getPool "agent-1" "agents", .disableAgent "poolX" "agent-1"]) :=
  (evictIdlePods_sequential demoEvictEnv demoEvictPod [demoEvictPod]).1
    (.msg "disable failed")
    [.getPool "agent-1" "agents", .disableAgent "poolX" "agent-1"] rfl

/-- C3: when a scaling-state record already exists (the read succeeds),
CreateConfigMap with any data returns success and leaves the store — in
particular the stored record — unchanged; when no record exists, the
supplied snapshot is written. -/
theorem createConfigMap_write_once (store : CMStore) (ns name : String)
    (d data2 : List (String × String))
    (h : lookupCM store ns name = some d) :
    createConfigMapStore store ns name data2 = (.ok (), store)
  ∧ ∀ (store2 : CMStore) (ns2 n2 : String) (d2 : List (String × String)),
      lookupCM store2 ns2 n2 = none →
        (createConfigMapStore store2 ns2 n2 d2).1 = .ok ()
        ∧ lookupCM (createConfigMapStore store2 ns2 n2 d2).2 ns2 n2 = some d2 := by
  constructor
  · unfold createConfigMapStore
    rw [h]
  · intro store2 ns2 n2 d2 h2
    unfold createConfigMapStore
    rw [h2]
    refine ⟨rfl, ?_⟩
    simp [lookupCM, List.lookup]

/-- C1: a pod of the listed pods that sits in a monitored namespace, is
Running, whose fetched log text ends with a configured sentinel and
which does not already satisfy the done-label condition (at least one
selector entry mismatches) is in the result of GetSafeToEvictPods; and
no pod outside the monitored namespaces ever is, whatever its logs. -/
theorem getSafeToEvictPods_selection (spec : SafeEvictSpec) (pods : List Pod) (p : Pod)
    (hmem : p ∈ pods)
    (hns : p.ns ∈ spec.namespaces)
    (hrun : p.phase = .running)
    (l : String) (hl : p.logs = some l)
    (s : String) (hs : s ∈ spec.lastLogLines) (hsuf : hasSuffix l s = true)
    (kv : String × String) (hkv : kv ∈ spec.labelSelector)
    (hmis : podLabelValue p kv.1 ≠ kv.2) :
    p ∈ getSafeToEvictPods spec pods
  ∧ ∀ (pods2 : List Pod) (q : Pod), q.ns ∉ spec.namespaces →
      q ∉ getSafeToEvictPods spec pods2 := by
  constructor
  · unfold getSafeToEvictPods
    refine List.mem_flatMap.mpr ⟨p, hmem, ?_⟩
    rw [if_pos hns]
    refine List.mem_map.mpr ⟨kv, ?_, rfl⟩
    refine List.mem_filter.mpr ⟨hkv, ?_⟩
    unfold keyTriggersEvict logsEndWithSentinel
    rw [hl]
    simp only [Bool.and_eq_true, decide_eq_true_eq, List.any_eq_true]
    exact ⟨⟨hmis, hrun⟩, s, hs, hsuf⟩
  · intro pods2 q hq hqmem
    unfold getSafeToEvictPods at hqmem
    obtain ⟨r, hr, hin⟩ := List.mem_flatMap.mp hqmem
    by_cases hrns : r.ns ∈ spec.namespaces
    · rw [if_pos hrns] at hin
      obtain ⟨kv2, hkv2, hqr⟩ := List.mem_map.mp hin
      exact hq (hqr ▸ hrns)
    · rw [if_neg hrns] at hin
      exact absurd hin (List.not_mem_nil q)

/-- C1 witness: the concrete pod and spec above. -/
theorem getSafeToEvictPods_selection_witness :
    dupPod ∈ getSafeToEvictPods dupSpec [dupPod] :=
  (getSafeToEvictPods_selection dupSpec [dupPod] dupPod (by decide) (by decide) rfl
    "step 3 ok. Job finished" rfl "Job finished" (by decide) (by decide)
    ("role", "done") (by decide) (by decide)).1

/-- C10: the result of GetSafeToEvictPods is not duplicate-free: with
the two-key selector above and a Running monitored pod mismatching both
keys with a sentinel-matching log tail, the pod is returned once per
mismatching selector key, here twice. -/
theorem getSafeToEvictPods_duplicate_entry :
    dupPod.ns ∈ dupSpec.namespaces
  ∧ dupPod.phase = .running
  ∧ dupPod.logs = some "step 3 ok. Job finished"
  ∧ hasSuffix "step 3 ok. Job finished" "Job finished" = true
  ∧ "Job finished" ∈ dupSpec.lastLogLines
  ∧ 2 ≤ (dupSpec.labelSelector.filter
        fun kv => decide (podLabelValue dupPod kv.1 ≠ kv.2)).length
  ∧ (getSafeToEvictPods dupSpec [dupPod]).count dupPod = 2 := by
  decide

/-- C3 witness: a concrete store with an existing record. -/
theorem createConfigMap_write_once_witness :
    createConfigMapStore [(("ns1", "tmpcr"), [("poolB", "cfg1")])] "ns1" "tmpcr"
        [("poolB", "cfg2")]
      = (.ok (), [(("ns1", "tmpcr"), [("poolB", "cfg1")])]) :=
  (createConfigMap_write_once [(("ns1", "tmpcr"), [("poolB", "cfg1")])] "ns1" "tmpcr"
    [("poolB", "cfg1")] [("poolB", "cfg2")] (by decide)).1

/-- Helper: DisableAutoScaling runs through a prefix of well-formed
pools whose eligible members all submit successfully, accumulating their
updates, and continues with the remaining pools. -/
theorem disableAutoScaling_ok_prefix (submit : AgentPool → SubmitResp)
    (pre rest : List AgentPool)
    (hwf : ∀ p ∈ pre, WFPool p = true)
    (hok : ∀ p ∈ pre, eligiblePool p = true → submit (setEnableFalse p) = .okResp) :
    disableAutoScaling submit (pre ++ rest)
      = ((disableAutoScaling submit rest).1,
          (pre.filter eligiblePool).map setEnableFalse
            ++ (disableAutoScaling submit rest).2) := by
  induction pre with
  | nil => simp
  | cons p ps ih =>
    have hwfp := hwf p (List.mem_cons_self p ps)
    have hih := ih (fun q hq => hwf q (List.mem_cons_of_mem p hq))
      (fun q hq hq2 => hok q (List.mem_cons_of_mem p hq) hq2)
    cases hp : p.properties with
    | none => simp [WFPool, hp] at hwfp
    | some pr =>
      simp only [WFPool, hp] at hwfp
      obtain ⟨hm, hst⟩ := by simpa using hwfp
      rw [List.cons_append]
      by_cases hsys : isSystemPool p = true
      · have he : eligiblePool p = false := by simp [eligiblePool, hsys]
        simp only [disableAutoScaling, hsys, if_true]
        rw [hih]
        simp [List.filter_cons, he]
      · have hsys2 : isSystemPool p = false := by simp at hsys; exact hsys
        obtain ⟨st, hst2⟩ := Option.isSome_iff_exists.mp hst
        simp only [disableAutoScaling, hsys2, Bool.false_eq_true, if_false, hp, hm,
          if_true, hst2]
        by_cases hsucc : st = "Succeeded"
        · have he : eligiblePool p = true := by
            simp [eligiblePool, hsys2, hp, hst2, hsucc]
          rw [if_neg (by simp [hsucc])]
          rw [hok p (List.mem_cons_self p ps) he]
          rw [hih]
          simp [List.filter_cons, he]
        · have he : eligiblePool p = false := by
            simp [eligiblePool, hp, hst2, hsucc]
          rw [if_pos (by simp [hsucc])]
          rw [hih]
          simp [List.filter_cons, he]

/-- Helper: one DisableAutoScaling step on an eligible well-formed pool
is decided by the control plane's answer to the submitted update. -/
theorem disableAutoScaling_cons_eligible (submit : AgentPool → SubmitResp)
    (q : AgentPool) (post : List AgentPool)
    (hwfq : WFPool q = true) (he : eligiblePool q = true) :
    disableAutoScaling submit (q :: post)
      = match submit (setEnableFalse q) with
        | .conflict409 => (.ok (), [setEnableFalse q])
        | .failResp e =>
          (.error (.wrap ("failed to update autoscaling for agent pool " ++ q.name) e),
            [setEnableFalse q])
        | .okResp =>
          ((disableAutoScaling submit post).1,
            setEnableFalse q :: (disableAutoScaling submit post).2) := by
  cases hp : q.properties with
  | none => simp [WFPool, hp] at hwfq
  | some pr =>
    simp only [WFPool, hp] at hwfq
    obtain ⟨hm, hst⟩ := by simpa using hwfq
    have hsys : isSystemPool q = false := by
      cases h : isSystemPool q
      · rfl
      · simp [eligiblePool, h] at he
    have hsucc : pr.provisioningState = some "Succeeded" := by
      simpa [eligiblePool, hsys, hp] using he
    simp only [disableAutoScaling, hsys, Bool.false_eq_true, if_false, hp, hm, if_true,
      hsucc]
    rw [if_neg (by simp)]

/-- C6 counterexample: with two non-system Succeeded pools and a control
plane answering 409 to every update, the call returns success after
submitting an update only for the first pool; the second eligible pool
is left untouched, contradicting the claim that every such pool gets an
update. -/
theorem disableAutoScaling_conflict_claim_false :
    eligiblePool cxPool1 = true ∧ eligiblePool cxPool2 = true
  ∧ disableAutoScaling cxSubmitConflict [cxPool1, cxPool2]
      = (.ok (), [setEnableFalse cxPool1])
  ∧ ∀ u ∈ (disableAutoScaling cxSubmitConflict [cxPool1, cxPool2]).2, u.name ≠ "p2" := by
  decide

/-- C6 (amended): over well-formed pools, every non-system Succeeded
pool processed before the first conflicting or failing submission gets
an update forcing autoscaling off; when all submissions succeed every
such pool is updated and the call succeeds; a 409 conflict makes the
whole call return success immediately, leaving the remaining pools
unprocessed; any other submission error makes the whole call return
that error. -/
theorem disableAutoScaling_amended (submit : AgentPool → SubmitResp)
    (pools : List AgentPool) (hwf : ∀ p ∈ pools, WFPool p = true) :
    ((∀ p ∈ pools, eligiblePool p = true → submit (setEnableFalse p) = .okResp) →
        disableAutoScaling submit pools
          = (.ok (), (pools.filter eligiblePool).map setEnableFalse))
  ∧ (∀ pre q post, pools = pre ++ q :: post → eligiblePool q = true →
        (∀ r ∈ pre, eligiblePool r = true → submit (setEnableFalse r) = .okResp) →
        submit (setEnableFalse q) = .conflict409 →
        disableAutoScaling submit pools
          = (.ok (), (pre.filter eligiblePool).map setEnableFalse ++ [setEnableFalse q]))
  ∧ (∀ pre q post e, pools = pre ++ q :: post → eligiblePool q = true →
        (∀ r ∈ pre, eligiblePool r = true → submit (setEnableFalse r) = .okResp) →
        submit (setEnableFalse q) = .failResp e →
        (disableAutoScaling submit pools).1
          = .error (.wrap ("failed to update autoscaling for agent pool " ++ q.name) e)) := by
  refine ⟨?_, ?_, ?_⟩
  · intro hok
    have h := disableAutoScaling_ok_prefix submit pools [] hwf hok
    rw [List.append_nil] at h
    simpa [disableAutoScaling] using h
  · intro pre q post hsplit he hpre hconf
    subst hsplit
    have h := disableAutoScaling_ok_prefix submit pre (q :: post)
      (fun r hr => hwf r (List.mem_append_left _ hr)) hpre
    rw [h, disableAutoScaling_cons_eligible submit q post
      (hwf q (List.mem_append_right _ (List.mem_cons_self q post))) he, hconf]
  · intro pre q post e hsplit he hpre hfail
    subst hsplit
    have h := disableAutoScaling_ok_prefix submit pre (q :: post)
      (fun r hr => hwf r (List.mem_append_left _ hr)) hpre
    rw [h, disableAutoScaling_cons_eligible submit q post
      (hwf q (List.mem_append_right _ (List.mem_cons_self q post))) he, hfail]

/-- C6 witness: both pools are updated when the control plane accepts
every submission. -/
theorem disableAutoScaling_amended_witness :
    disableAutoScaling cxSubmitOk [cxPool1, cxPool2]
      = (.ok (), [setEnableFalse cxPool1, setEnableFalse cxPool2]) :=
  ((disableAutoScaling_amended cxSubmitOk [cxPool1, cxPool2] (by decide)).1
    (by decide)).trans (by decide)

/-- C7: on text that is not valid JSON the call does return an error,
but on the empty JSON object — which contains neither the
MinCount/MaxCount pair nor Count — SetDefaultScaling only logs, submits
the UNCHANGED pool to the control plane and returns success: the
malformed case is not surfaced, contradicting the claim (the `return`
after the log line is missing in the source). -/
theorem setDefaultScaling_malformed_not_surfaced :
    setDefaultScaling c7Parse cxSubmitOk c7Pool "\x7b\x7d" = (.ok (), some c7Pool)
  ∧ (setDefaultScaling c7Parse cxSubmitOk c7Pool "not json").1
      = .error (.msg "failed to parse scalingData JSON") := by
  decide

/-- C4: for a pool whose record is the pair min=m and max=x: when the
live pool already has autoscaling enabled with exactly those bounds the
call is a success with no control-plane update; otherwise the update
submitted enables autoscaling with exactly min=m and max=x, and the
call succeeds when the submission is accepted (or answers 409). And in
the reconcile restore loop, on a pass that falls through, every pool
named in the record that is not in the outdated set got its persisted
config applied and its nodes uncordoned. -/
theorem setScaling_restore (parse : String → Except Err (List (String × Int)))
    (submit : AgentPool → SubmitResp) (np : AgentPool) (data : String)
    (pr : AgentPoolProps) (cfg : List (String × Int)) (mn mx : Int)
    (h1 : np.properties = some pr)
    (h2 : pr.provisioningState = some "Succeeded")
    (h3 : parse data = .ok cfg)
    (h4 : cfg.lookup "MinCount" = some mn)
    (h5 : cfg.lookup "MaxCount" = some mx) :
    (pr.enableAutoScaling = some true ∧ pr.minCount = some (toInt32 mn)
        ∧ pr.maxCount = some (toInt32 mx) →
      setDefaultScaling parse submit np data = (.ok (), none))
  ∧ (¬(pr.enableAutoScaling = some true ∧ pr.minCount = some (toInt32 mn)
        ∧ pr.maxCount = some (toInt32 mx)) →
      (setDefaultScaling parse submit np data).2 = some (withMinMax np mn mx)
      ∧ (withMinMax np mn mx).properties
          = some { pr with
                   enableAutoScaling := some true
                   minCount := some (toInt32 mn)
                   maxCount := some (toInt32 mx) }
      ∧ (submit (withMinMax np mn mx) = .okResp ∨ submit (withMinMax np mn mx) = .conflict409 →
          (setDefaultScaling parse submit np data).1 = .ok ()))
  ∧ (∀ (env : ReconEnv) (outPools : List (String × AgentPool))
        (entries : List (String × String)) (acts : List RAct),
        restoreLoop env outPools entries = (.fallThrough, acts) →
        ∀ nm d, (nm, d) ∈ entries → outPools.lookup nm = none →
          RAct.setScaling nm d ∈ acts ∧ RAct.cordonOff nm ∈ acts) := by
  have hguard : setDefaultScaling parse submit np data
      = setDefaultScalingBody parse submit np data := by
    unfold setDefaultScaling
    rw [h1]
    cases hm : pr.mode with
    | none => simp [hm]
    | some m => simp [hm, h2]
  have hbody : setDefaultScalingBody parse submit np data
      = if pr.enableAutoScaling = some true ∧ pr.minCount = some (toInt32 mn)
            ∧ pr.maxCount = some (toInt32 mx) then (.ok (), none)
        else scalingSubmit submit (withMinMax np mn mx) := by
    unfold setDefaultScalingBody
    rw [h3]
    dsimp only
    rw [h4, h5]
    dsimp only
    rw [h1]
  refine ⟨?_, ?_, ?_⟩
  · intro hno
    rw [hguard, hbody, if_pos hno]
  · intro hch
    rw [hguard, hbody, if_neg hch]
    refine ⟨?_, ?_, ?_⟩
    · unfold scalingSubmit
      cases submit (withMinMax np mn mx) <;> rfl
    · unfold withMinMax
      rw [h1]
      rfl
    · intro hsub
      unfold scalingSubmit
      rcases hsub with hsub | hsub <;> rw [hsub]
  · intro env outPools entries
    induction entries with
    | nil =>
      intro acts h nm d hmem hlk
      simp at hmem
    | cons hd tl ih =>
      intro acts h nm d hmem hlk
      obtain ⟨name, dt⟩ := hd
      simp only [restoreLoop] at h
      by_cases hsk : (outPools.lookup name).isSome
      · rw [if_pos hsk] at h
        rcases List.mem_cons.mp hmem with heq | hmem2
        · have hnm : nm = name := congrArg Prod.fst heq
          rw [← hnm, hlk] at hsk
          simp at hsk
        · exact ih acts h nm d hmem2 hlk
      · rw [if_neg hsk] at h
        cases hnp : env.getNodePoolByName name with
        | error e =>
          rw [hnp] at h
          simp at h
        | ok np2 =>
          rw [hnp] at h
          dsimp only at h
          cases hsd : (setDefaultScaling env.parseScaling env.submitPool np2 dt).1 with
          | error e =>
            rw [hsd] at h
            dsimp only at h
            by_cases hu : isUpdatingState np2 = true
            · rw [if_pos hu] at h
              simp at h
            · rw [if_neg hu] at h
              simp at h
          | ok u =>
            rw [hsd] at h
            dsimp only at h
            have hfst := congrArg Prod.fst h
            have hsnd := congrArg Prod.snd h
            dsimp only at hfst hsnd
            rcases List.mem_cons.mp hmem with heq | hmem2
            · have hnm : nm = name := congrArg Prod.fst heq
              have hdd : d = dt := congrArg Prod.snd heq
              subst hnm
              subst hdd
              rw [← hsnd]
              exact ⟨List.mem_cons_self _ _,
                List.mem_cons_of_mem _ (List.mem_cons_self _ _)⟩
            · have hr : restoreLoop env outPools tl
                  = (.fallThrough, (restoreLoop env outPools tl).2) := by
                rw [← hfst]
              obtain ⟨ha, hb⟩ := ih (restoreLoop env outPools tl).2 hr nm d hmem2 hlk
              rw [← hsnd]
              exact ⟨List.mem_cons_of_mem _ (List.mem_cons_of_mem _ ha),
                List.mem_cons_of_mem _ (List.mem_cons_of_mem _ hb)⟩

/-- C4 witness: with the persisted record min 2 / max 5 and a live pool
already autoscaled at exactly those bounds, the call is a success and no
update is submitted. -/
theorem setScaling_restore_witness :
    setDefaultScaling c4Parse cxSubmitOk c4Pool "record" = (.ok (), none) :=
  (setScaling_restore c4Parse cxSubmitOk c4Pool "record"
    ⟨some .user, some "Succeeded", some true, some 2, some 5, some 3⟩
    [("MinCount", 2), ("MaxCount", 5)] 2 5
    rfl rfl rfl (by decide) (by decide)).1 (by decide)

/-- Helper: the upgrade loop never aborts with the long delay. -/
theorem upgradeLoop_not_long (env : ReconEnv) (names : List String) (e : Option Err) :
    upgradeLoop env names ≠ .abort .upgradeFrequency e := by
  induction names with
  | nil => simp [upgradeLoop]
  | cons n tl ih =>
    simp only [upgradeLoop]
    cases env.getNodesByNodePool n with
    | error e2 => simp
    | ok nodes =>
      dsimp only
      cases env.hasRunningStatefulPods nodes with
      | error e2 => simp
      | ok b =>
        cases b with
        | true => exact ih
        | false =>
          dsimp only
          cases env.getNodePoolByName n with
          | error e2 => simp
          | ok np =>
            dsimp only
            by_cases hup : isUpgradingNodeImage np = true
            · rw [if_pos hup]
              simp
            · rw [if_neg hup]
              cases env.upgradeNodeImage np with
              | error e2 => simp
              | ok u => exact ih

/-- Helper: the restore loop never aborts with the long delay. -/
theorem restoreLoop_not_long (env : ReconEnv) (outPools : List (String × AgentPool))
    (entries : List (String × String)) (e : Option Err) :
    (restoreLoop env outPools entries).1 ≠ .abort .upgradeFrequency e := by
  induction entries with
  | nil => simp [restoreLoop]
  | cons hd tl ih =>
    obtain ⟨name, dt⟩ := hd
    simp only [restoreLoop]
    by_cases hsk : (outPools.lookup name).isSome
    · rw [if_pos hsk]
      exact ih
    · rw [if_neg hsk]
      cases env.getNodePoolByName name with
      | error e2 => simp
      | ok np2 =>
        dsimp only
        cases (setDefaultScaling env.parseScaling env.submitPool np2 dt).1 with
        | error e2 =>
          dsimp only
          by_cases hu : isUpdatingState np2 = true
          · rw [if_pos hu]
            simp
          · rw [if_neg hu]
            simp
        | ok u =>
          dsimp only
          exact ih

/-- Helper: the cleanup block never returns the long delay. -/
theorem cleanupPhase_not_long (env : ReconEnv) (cm tmp : String) (acts : List RAct) :
    (cleanupPhase env cm tmp acts).delay ≠ .upgradeFrequency := by
  unfold cleanupPhase
  cases env.getNodePoolByName tmp with
  | error e =>
    dsimp only
    by_cases h : e = .notFound
    · rw [if_pos h]
      simp
    · rw [if_neg h]
      simp
  | ok tmpPool =>
    dsimp only
    cases (disableAutoScaling env.submitPool [tmpPool]).1 with
    | error e => simp
    | ok u =>
      dsimp only
      cases env.getNodesByNodePool tmpPool.name with
      | error e => simp
      | ok tmpNodes =>
        dsimp only
        cases env.hasRunningStatefulPods tmpNodes with
        | error e => simp
        | ok b =>
          cases b with
          | true => simp
          | false =>
            dsimp only
            cases env.removeTemporaryNodePool tmp with
            | error e => simp
            | ok u2 =>
              dsimp only
              cases env.deleteConfigMap cm with
              | error e => simp
              | ok u3 => simp

/-- Helper: the tail of the reconcile invocation after the surge-pool
branch never returns the long delay. -/
theorem afterCMPhase_not_long (env : ReconEnv) (se : SafeEvictObj)
    (outNodes : List String) (outPools : List (String × AgentPool))
    (cmData : List (String × String)) (acts : List RAct) :
    (afterCMPhase env se outNodes outPools cmData acts).delay ≠ .upgradeFrequency := by
  unfold afterCMPhase
  cases performSafeEviction env outPools with
  | error e => simp
  | ok u =>
    dsimp only
    cases hup : upgradeLoop env se.spec.nodepools with
    | abort d e =>
      dsimp only
      intro hcon
      rw [hcon] at hup
      exact upgradeLoop_not_long env se.spec.nodepools e hup
    | fallThrough =>
      dsimp only
      cases hr : (restoreLoop env outPools cmData).1 with
      | abort d e =>
        dsimp only
        intro hcon
        rw [hcon] at hr
        exact restoreLoop_not_long env outPools cmData e hr
      | fallThrough =>
        dsimp only
        by_cases hemp : outNodes = [] ∧ outPools = []
        · rw [if_pos hemp]
          exact cleanupPhase_not_long env _ _ _
        · rw [if_neg hemp]
          simp

/-- Helper: reconcileRestPhase never returns the long delay. -/
theorem reconcileRestPhase_not_long (env : ReconEnv) (se : SafeEvictObj)
    (outNodes : List String) (outPools : List (String × AgentPool)) (acts : List RAct) :
    (reconcileRestPhase env se outNodes outPools acts).delay ≠ .upgradeFrequency := by
  unfold reconcileRestPhase
  cases env.getProvisioningState se.getTemporaryNodepoolName with
  | error e => simp
  | ok st =>
    dsimp only
    by_cases hcr : st = "Creating"
    · rw [if_pos hcr]
      simp
    · rw [if_neg hcr]
      cases env.getConfigMapData se.getConfigmapName with
      | error e =>
        dsimp only
        by_cases hnf : e = .notFound
        · rw [if_pos hnf]
          cases buildConfigData outPools with
          | error d => simp
          | ok configData =>
            dsimp only
            cases env.createConfigMap se.getConfigmapName configData with
            | error e2 => simp
            | ok u => exact afterCMPhase_not_long env se outNodes outPools [] _
        · rw [if_neg hnf]
          simp
      | ok data =>
        exact afterCMPhase_not_long env se outNodes outPools data acts

/-- C5: on an invocation where the surge pool does not exist and nothing
is outdated, the engine deletes the scaling-state record and returns the
long steady-state delay (first conjunct); where the surge pool does not
exist and something is outdated, it creates the surge pool from the base
pool and — the fresh pool reporting Creating — returns the short delay
(second conjunct); and the long delay is returned only on invocations
where the surge pool does not exist and both outdated sets are empty
(third conjunct). -/
theorem reconcile_delays (env : ReconEnv) :
    (∀ se, env.getSafeEvict = .ok se →
       env.updateNeeded = .ok ([], []) →
       env.getNotReadyNodePools = .ok [] →
       env.nodePoolExists se.getTemporaryNodepoolName = .ok false →
       env.deleteConfigMap se.getConfigmapName = .ok () →
       reconcile env = ⟨.upgradeFrequency, none, [.deleteCM se.getConfigmapName]⟩)
  ∧ (∀ se outNodes outPools0 notReady,
       env.getSafeEvict = .ok se →
       env.updateNeeded = .ok (outNodes, outPools0) →
       env.getNotReadyNodePools = .ok notReady →
       ¬(outNodes = [] ∧ mergePools outPools0 notReady = []) →
       env.nodePoolExists se.getTemporaryNodepoolName = .ok false →
       env.createTemporaryNodePool se.getTemporaryNodepoolName
           se.spec.baseForBackupPool = .ok () →
       env.getProvisioningState se.getTemporaryNodepoolName = .ok "Creating" →
       reconcile env = ⟨.successDelay, none,
         [.createTemp se.getTemporaryNodepoolName se.spec.baseForBackupPool]⟩)
  ∧ ((reconcile env).delay = .upgradeFrequency →
       ∃ se outNodes outPools0 notReady,
         env.getSafeEvict = .ok se
         ∧ env.updateNeeded = .ok (outNodes, outPools0)
         ∧ env.getNotReadyNodePools = .ok notReady
         ∧ env.nodePoolExists se.getTemporaryNodepoolName = .ok false
         ∧ outNodes = [] ∧ mergePools outPools0 notReady = []) := by
  refine ⟨?_, ?_, ?_⟩
  · intro se h1 h2 h3 h4 h5
    unfold reconcile
    rw [h1, h2, h3]
    dsimp only
    rw [h4]
    dsimp only [mergePools, List.foldl]
    rw [if_neg (by simp), if_pos ⟨rfl, rfl⟩, h5]
  · intro se outNodes outPools0 notReady h1 h2 h3 hne h4 h5 h6
    unfold reconcile
    rw [h1, h2, h3]
    dsimp only
    rw [h4]
    dsimp only
    rw [if_neg (by simp), if_neg hne, h5]
    dsimp only
    unfold reconcileRestPhase
    rw [h6]
    dsimp only
    rw [if_pos rfl]
  · intro hlong
    unfold reconcile at hlong
    cases h1 : env.getSafeEvict with
    | error e =>
      rw [h1] at hlong
      simp at hlong
    | ok se =>
      rw [h1] at hlong
      dsimp only at hlong
      cases h2 : env.updateNeeded with
      | error e =>
        rw [h2] at hlong
        simp at hlong
      | ok pr =>
        obtain ⟨outNodes, outPools0⟩ := pr
        rw [h2] at hlong
        dsimp only at hlong
        cases h3 : env.getNotReadyNodePools with
        | error e =>
          rw [h3] at hlong
          simp at hlong
        | ok notReady =>
          rw [h3] at hlong
          dsimp only at hlong
          cases h4 : env.nodePoolExists se.getTemporaryNodepoolName with
          | error e =>
            rw [h4] at hlong
            simp at hlong
          | ok b =>
            rw [h4] at hlong
            dsimp only at hlong
            cases b with
            | true =>
              simp only [if_true] at hlong
              exact absurd hlong (reconcileRestPhase_not_long env se outNodes _ [])
            | false =>
              simp only [Bool.false_eq_true, if_false] at hlong
              by_cases hemp : outNodes = [] ∧ mergePools outPools0 notReady = []
              · exact ⟨se, outNodes, outPools0, notReady, rfl, rfl, rfl, h4, hemp.1, hemp.2⟩
              · rw [if_neg hemp] at hlong
                cases h5 : env.createTemporaryNodePool se.getTemporaryNodepoolName
                    se.spec.baseForBackupPool with
                | error e =>
                  rw [h5] at hlong
                  simp at hlong
                | ok u =>
                  rw [h5] at hlong
                  dsimp only at hlong
                  exact absurd hlong (reconcileRestPhase_not_long env se outNodes _ _)

/-- C5 witness: the steady demo world deletes the record and requeues at
the long delay. -/
theorem reconcile_delays_witness :
    reconcile demoReconEnv = ⟨.upgradeFrequency, none, [.deleteCM "tmpcr1"]⟩ :=
  ((reconcile_delays demoReconEnv).1 demoSafeEvict rfl rfl rfl rfl rfl).trans (by decide)

end NodeUpdater
